import Mathlib

/-!
Shallow embedding of the vmkit runtime substrate (crates/vmkit, crates/swapstack)
for checking its natural-language specification.  Machine integers are modelled
as `Nat` with explicit truncation where the source masks; memory is modelled as
maps from byte addresses to 64-bit words (all addresses and sizes involved are
multiples of 8, matching the source's alignment discipline).  All constants are
instantiated for the 64-bit target the source is written for
(`size_of::<usize>() = 8`, `LOG_BYTES_IN_ADDRESS = 3`).
-/

/-! ## Object-model header (crates/vmkit/src/objectmodel/header.rs) -/

/-- Hash state of a heap object header, from `enum HashState` in header.rs
(discriminants `Unhashed = 0`, `Hashed = 1`, `HashedAndMoved = 2`). -/
inductive HashState where
  | Unhashed
  | Hashed
  | HashedAndMoved
deriving DecidableEq, Repr

/-- `ToBitfield::to_bitfield` for `HashState` (header.rs): `self as u8`,
i.e. the declared discriminant. -/
def HashState.toBitfieldVal : HashState → Nat
  | .Unhashed => 0
  | .Hashed => 1
  | .HashedAndMoved => 2

/-- `FromBitfield::from_bitfield` for `HashState` (header.rs): matches the raw
value with `0 => Hashed`, `1 => HashedAndMoved`, `2 => Unhashed`, anything else
unreachable (modelled as `none`). -/
def HashState.fromBitfieldVal : Nat → Option HashState
  | 0 => some .Hashed
  | 1 => some .HashedAndMoved
  | 2 => some .Unhashed
  | _ => none

/-- Generic bitfield read, semantics of `easy_bitfield::BitField::decode`:
extract `width` bits at offset `off` from `storage`. -/
def readField (storage off width : Nat) : Nat :=
  (storage >>> off) % 2 ^ width

/-- Generic bitfield write, semantics of `easy_bitfield::BitField::update`:
replace the `width` bits at offset `off` of `storage` by `val` (truncated). -/
def writeField (storage off width val : Nat) : Nat :=
  storage / 2 ^ (off + width) * 2 ^ (off + width)
    + val % 2 ^ width * 2 ^ off
    + storage % 2 ^ off

/-- Bit offset of `HashStateBitfield`: `VTableBitfield` occupies bits 0..58, so
`VTableBitfield::NEXT_BIT = 58` (header.rs line 5-6). -/
def HASH_STATE_OFFSET : Nat := 58

/-- Bit width of `HashStateBitfield` (header.rs line 6). -/
def HASH_STATE_WIDTH : Nat := 2

/-- `HeapObjectHeader::hash_state`: read the hash-state bitfield of the header
word and decode it through `FromBitfield`. -/
def headerHashState (storage : Nat) : Option HashState :=
  HashState.fromBitfieldVal (readField storage HASH_STATE_OFFSET HASH_STATE_WIDTH)

/-- `HeapObjectHeader::set_hash_state`: encode the state through `ToBitfield`
and write it into the hash-state bitfield of the header word. -/
def headerSetHashState (storage : Nat) (s : HashState) : Nat :=
  writeField storage HASH_STATE_OFFSET HASH_STATE_WIDTH s.toBitfieldVal

/-- `HeapObjectHeader::new(vtable)` (header.rs lines 73-82): storage starts at
0, then `set_vtable` writes the vtable pointer into bits 0..58; the hash-state
bits remain zero. -/
def headerNew (vt : Nat) : Nat :=
  writeField 0 0 58 vt

/-! ## VTable pointer (crates/vmkit/src/objectmodel/vtable.rs) -/

/-- `MAX_VTABLE_PTR` on a 64-bit target: `1 << 58` (vtable.rs line 43). -/
def MAX_VTABLE_PTR : Nat := 1 <<< 58

/-- `VTablePointer::new(address)` (vtable.rs lines 52-59): returns `None`
exactly when `address > MAX_VTABLE_PTR`, otherwise wraps the address. -/
def vtablePointerNew (address : Nat) : Option Nat :=
  if address > MAX_VTABLE_PTR then none else some address

/-! ## Thread execution state (crates/vmkit/src/runtime/threads.rs) -/

/-- `enum ThreadState` (threads.rs lines 475-489). -/
inductive ThreadState where
  | New
  | Running
  | Parked
  | RunningToBlock
  | BlockedInParked
  | Terminated
deriving DecidableEq, Repr

/-- `TLSData::set_blocked_exec_status` (threads.rs lines 642-661): the CAS
retry loop computes, atomically, `Running ↦ RunningToBlock`,
`Parked ↦ BlockedInParked`, every other state unchanged, and returns the
state it installed.  Collapsed to its sequential meaning (each retry of the
loop recomputes from the freshly read state; on success the installed state is
returned). -/
def setBlockedExecStatus : ThreadState → ThreadState
  | .Running => .RunningToBlock
  | .Parked => .BlockedInParked
  | s => s

/-! ## Claims C3, C9, C5 -/

/-- C3: the claim asserts the hash-state bitfield round-trips
(`read (write s) = s`) and that a fresh header (hash-state bits zero) reads as
`Unhashed`.  The code violates this: `from_bitfield` decodes `0 ↦ Hashed`,
`1 ↦ HashedAndMoved`, `2 ↦ Unhashed`, which is not the inverse of
`to_bitfield`'s `Unhashed ↦ 0`, `Hashed ↦ 1`, `HashedAndMoved ↦ 2`.  Evaluated
at the failing input: writing `Unhashed` into a fresh header reads back as
`Hashed`, and a freshly allocated header reads `Hashed`, not `Unhashed`. -/
theorem C3_hash_state_roundtrip_fails :
    headerHashState (headerSetHashState (headerNew 416) HashState.Unhashed)
      = some HashState.Hashed
    ∧ headerHashState (headerNew 416) = some HashState.Hashed
    ∧ some HashState.Hashed ≠ some HashState.Unhashed
    ∧ HashState.fromBitfieldVal (HashState.Unhashed.toBitfieldVal)
      = some HashState.Hashed := by
  refine ⟨by decide, by decide, by decide, by decide⟩

/-- C9 (as stated): the claim says `VTablePointer::new(a)` is `Some` exactly
when `0 < a < 2^58`.  False at `a = 0`: the code accepts the null address. -/
theorem C9_counterexample :
    (vtablePointerNew 0).isSome = true ∧ ¬ (0 < 0 ∧ 0 < 2 ^ 58) := by
  refine ⟨by decide, by simp⟩

/-- C9 (amended): `VTablePointer::new(a)` returns `Some` exactly when
`a ≤ 2^58`; the null address and the boundary value `2^58` itself are
accepted, only addresses strictly above `2^58` are rejected. -/
theorem C9_vtable_pointer_new_bound (a : Nat) :
    (vtablePointerNew a).isSome = true ↔ a ≤ 2 ^ 58 := by
  unfold vtablePointerNew MAX_VTABLE_PTR
  by_cases h : a > 1 <<< 58
  · simp only [if_pos h, Option.isSome_none]
    constructor
    · intro hc
      exact absurd hc (by decide)
    · intro hle
      exfalso
      have : (1 <<< 58 : Nat) = 2 ^ 58 := by decide
      omega
  · simp only [if_neg h, Option.isSome_some]
    have : (1 <<< 58 : Nat) = 2 ^ 58 := by decide
    constructor
    · intro _
      omega
    · intro _
      trivial

/-- C5: posting a block request via `set_blocked_exec_status` moves
`Running ↦ RunningToBlock` and `Parked ↦ BlockedInParked`, leaves every other
state unchanged, and returns the resulting state. -/
theorem C5_set_blocked_exec_status :
    setBlockedExecStatus .Running = .RunningToBlock
    ∧ setBlockedExecStatus .Parked = .BlockedInParked
    ∧ setBlockedExecStatus .New = .New
    ∧ setBlockedExecStatus .RunningToBlock = .RunningToBlock
    ∧ setBlockedExecStatus .BlockedInParked = .BlockedInParked
    ∧ setBlockedExecStatus .Terminated = .Terminated := by
  decide

/-! ## TLAB (crates/vmkit/src/mm/tlab.rs) -/

/-- `Address::align_down(align)` for a power-of-two `align`: clear the low
bits, i.e. round down to a multiple of `align`. -/
def alignDown (a align : Nat) : Nat :=
  a / align * align

/-- `align_up` / `raw_align_up`: round up to a multiple of `align`. -/
def alignUp (a align : Nat) : Nat :=
  (a + align - 1) / align * align

/-- The fields of `struct TLAB` involved in the allocation fast path:
`bump_cursor`, `bump_end` and the cached `los_threshold`
(`max_non_los_default_alloc_bytes` of the plan). -/
structure TLAB where
  bumpCursor : Nat
  bumpEnd : Nat
  losThreshold : Nat
deriving DecidableEq, Repr

/-- Outcome of a TLAB allocation request: a fast-path bump (resulting address
plus updated TLAB), or one of the two slow paths taken in `allocate_slow`
(`AllocationSemantics::Los` when `size >= los_threshold`, the default
`alloc_slow` otherwise); the slow-path addresses come from the external
collector and are left abstract. -/
inductive AllocResult where
  | fast (addr : Nat) (tlab : TLAB)
  | slowLos
  | slowDefault
deriving DecidableEq, Repr

/-- `TLAB::allocate` (tlab.rs lines 53-68) composed with the dispatch of
`TLAB::allocate_slow` (lines 70-95): compute
`result = align_down(bump_cursor - size, align)`; if `result < bump_end` go to
the slow path (which sends `size >= los_threshold` to LOS and everything else
to the default slow allocation), otherwise store `result` as the new cursor
and return it.  The buffer is bumped downward. -/
def TLAB.allocate (t : TLAB) (size align : Nat) : AllocResult :=
  let result := alignDown (t.bumpCursor - size) align
  if result < t.bumpEnd then
    if size ≥ t.losThreshold then .slowLos else .slowDefault
  else
    .fast result { t with bumpCursor := result }

/-- Modelled from the spec, for comparison only: the claim's description of the
TLAB fast path ("if size ≥ LOS-threshold: slow-path LOS; result ←
align_up(cursor, align); if result + size > limit: slow-path default; cursor ←
result + size; return result"), with `limit` read as `bump_end`. -/
def TLAB.allocateClaimed (t : TLAB) (size align : Nat) : AllocResult :=
  if size ≥ t.losThreshold then .slowLos
  else
    let result := alignUp t.bumpCursor align
    if result + size > t.bumpEnd then .slowDefault
    else .fast result { t with bumpCursor := result + size }

/-! ## Stack state (crates/vmkit/src/runtime/threads/stack.rs and crates/swapstack/src/stack.rs) -/

/-- `enum StackState` as declared in both stack.rs files: exactly five
constructors, in this order. -/
inductive StackState where
  | New
  | Ready
  | Active
  | Dead
  | Unknown
deriving DecidableEq, Repr, Fintype

/-- Modelled from the spec, for comparison only: the six stack states the
claim asserts (`state ∈ {New, Ready, Active, Suspended, Dead, Unknown}`). -/
inductive SpecStackState where
  | New
  | Ready
  | Active
  | Suspended
  | Dead
  | Unknown
deriving DecidableEq, Repr, Fintype

/-- `BYTES_IN_PAGE` used by the vmkit `Stack::new` (4 KiB pages). -/
def BYTES_IN_PAGE : Nat := 4096

/-- The fields of the vmkit `struct Stack` the stack-lifecycle claim concerns
(runtime/threads/stack.rs lines 40-55); the mmap handle is omitted. -/
structure VMStack where
  size : Nat
  overflowGuard : Nat
  lowerBound : Nat
  upperBound : Nat
  underflowGuard : Nat
  sp : Nat
  bp : Nat
  ip : Nat
  state : StackState
deriving DecidableEq, Repr

/-- `Stack::new` (runtime/threads/stack.rs lines 67-119): round the requested
size up to a page, lay out guard pages around the mapping (whose start address
is the fresh anonymous mapping, taken as a parameter here), point `sp` and
`bp` at the upper bound, and construct the stack in state `New`. -/
def VMStack.new (mmapStart : Nat) (stackSize : Nat) : VMStack :=
  let sz := alignUp stackSize BYTES_IN_PAGE
  let overflowGuard := mmapStart
  let lowerBound := mmapStart + BYTES_IN_PAGE
  let upperBound := lowerBound + sz
  { size := sz
    overflowGuard := overflowGuard
    lowerBound := lowerBound
    upperBound := upperBound
    underflowGuard := upperBound
    sp := upperBound
    bp := upperBound
    ip := 0
    state := .New }

/-- `Stack::uninit` (runtime/threads/stack.rs lines 121-135): all fields
zero, state `Unknown`. -/
def VMStack.uninit : VMStack :=
  { size := 0, overflowGuard := 0, lowerBound := 0, upperBound := 0
    underflowGuard := 0, sp := 0, bp := 0, ip := 0, state := .Unknown }

/-! ## Claims C2, C4 -/

/-- C2 (as stated): the claim describes an upward-bumping fast path with an
up-front LOS check.  False on the code: with `bump_cursor = 1000`,
`bump_end = 0`, `los_threshold = 100`, a request of 100 bytes at alignment 8
satisfies `size ≥ los_threshold`, yet the code takes the fast path (returning
`align_down(1000 - 100, 8) = 896` and bumping the cursor down to 896) instead
of dispatching to LOS as the claim predicts. -/
theorem C2_counterexample :
    TLAB.allocate ⟨1000, 0, 100⟩ 100 8
      = AllocResult.fast 896 ⟨896, 0, 100⟩
    ∧ TLAB.allocateClaimed ⟨1000, 0, 100⟩ 100 8 = AllocResult.slowLos
    ∧ TLAB.allocate ⟨1000, 0, 100⟩ 100 8
      ≠ TLAB.allocateClaimed ⟨1000, 0, 100⟩ 100 8 := by
  refine ⟨by decide, by decide, by decide⟩

/-- C2 (amended): the TLAB bumps downward.  The fast path computes
`align_down(bump_cursor - size, align)` and takes the slow path exactly when
that result is below `bump_end`; otherwise it returns the aligned result —
which is `align`-aligned, at least `bump_end`, and leaves `result + size`
within the old cursor — and stores it as the new cursor.  The slow path, not
the fast path, dispatches to LOS precisely when `size ≥ los_threshold` and to
the default slow allocation otherwise. -/
theorem C2_tlab_allocate_spec (t : TLAB) (size align : Nat)
    (_halign : 0 < align) (hsize : size ≤ t.bumpCursor) :
    (alignDown (t.bumpCursor - size) align < t.bumpEnd →
      TLAB.allocate t size align
        = (if size ≥ t.losThreshold then .slowLos else .slowDefault))
    ∧ (¬ alignDown (t.bumpCursor - size) align < t.bumpEnd →
      TLAB.allocate t size align
        = .fast (alignDown (t.bumpCursor - size) align)
            { t with bumpCursor := alignDown (t.bumpCursor - size) align }
      ∧ alignDown (t.bumpCursor - size) align % align = 0
      ∧ t.bumpEnd ≤ alignDown (t.bumpCursor - size) align
      ∧ alignDown (t.bumpCursor - size) align + size ≤ t.bumpCursor) := by
  constructor
  · intro h
    unfold TLAB.allocate
    simp only [if_pos h]
  · intro h
    refine ⟨?_, ?_, ?_, ?_⟩
    · unfold TLAB.allocate
      simp only [if_neg h]
    · unfold alignDown
      exact Nat.mul_mod_left _ _
    · omega
    · have hd : alignDown (t.bumpCursor - size) align ≤ t.bumpCursor - size := by
        unfold alignDown
        exact Nat.div_mul_le_self _ _
      omega

/-- C2 witness: the amended characterization applied at the concrete TLAB
`⟨1000, 0, 100⟩` with a 100-byte request at alignment 8 (fast-path case). -/
theorem C2_tlab_allocate_spec_witness :
    TLAB.allocate ⟨1000, 0, 100⟩ 100 8
      = .fast (alignDown (1000 - 100) 8) ⟨alignDown (1000 - 100) 8, 0, 100⟩
    ∧ alignDown (1000 - 100) 8 % 8 = 0 := by
  have h := C2_tlab_allocate_spec ⟨1000, 0, 100⟩ 100 8 (by decide) (by decide)
  have h2 := h.2 (by decide)
  exact ⟨h2.1, h2.2.1⟩

/-- C4 (as stated): the claim says every stack's state ranges over six values
including `Suspended`.  False on the code: both `StackState` enums declare only
five states, so the claimed six states cannot even be embedded injectively into
the code's state type — there is no `Suspended` state. -/
theorem C4_counterexample :
    ¬ ∃ f : SpecStackState → StackState, Function.Injective f := by
  rintro ⟨f, hf⟩
  have hc := Fintype.card_le_of_injective f hf
  have h6 : Fintype.card SpecStackState = 6 := by decide
  have h5 : Fintype.card StackState = 5 := by decide
  omega

/-- C4 (amended): every stack's state ranges over the five values
`{New, Ready, Active, Dead, Unknown}` (there is no `Suspended` state);
`Stack::new` constructs the stack in state `New` and the uninitialized
placeholder stack is `Unknown` (the swapstack crate's `from_native` adopts
the running native stack as `Active`); the swap-in/swap-out transitions are
performed by generated machine code, not by the Rust source. -/
theorem C4_stack_states (mmapStart stackSize : Nat) :
    (∀ s : StackState,
      s = .New ∨ s = .Ready ∨ s = .Active ∨ s = .Dead ∨ s = .Unknown)
    ∧ (VMStack.new mmapStart stackSize).state = .New
    ∧ VMStack.uninit.state = .Unknown := by
  refine ⟨?_, rfl, rfl⟩
  intro s
  cases s <;> simp

/-! ## Monitor (crates/vmkit/src/sync.rs) -/

/-- The no-holder sentinel stored in `Monitor::holder`: `u64::MAX`. -/
def NO_HOLDER : Nat := 2 ^ 64 - 1

/-- The fields of `struct Monitor` governing recursion: the `holder` thread id
(`u64::MAX` when free), the recursion count, and whether the underlying
parking-lot mutex is held. -/
structure MonitorState where
  holder : Nat
  recCount : Nat
  mutexLocked : Bool
deriving DecidableEq, Repr

/-- `Monitor::new` (sync.rs lines 36-44): holder `u64::MAX`, recursion count
zero, mutex free. -/
def MonitorState.init : MonitorState :=
  { holder := NO_HOLDER, recCount := 0, mutexLocked := false }

/-- `Monitor::lock_no_handshake` (sync.rs lines 78-98) called by thread `me`:
if `me` is not the recorded holder, acquire the underlying mutex, record `me`
as holder and increment the recursion count; otherwise (recursive entry) make
a guard without touching the mutex and increment the recursion count. -/
def MonitorState.lockNoHandshake (me : Nat) (m : MonitorState) : MonitorState :=
  if me ≠ m.holder then
    { holder := me, recCount := m.recCount + 1, mutexLocked := true }
  else
    { m with recCount := m.recCount + 1 }

/-- `MonitorGuard::drop` (sync.rs lines 213-225): `rec_count.fetch_sub(1)`;
if the previous count was 1 the mutex guard is dropped (mutex released),
otherwise the guard is leaked (mutex untouched).  The holder field is not
touched. -/
def MonitorState.guardDrop (m : MonitorState) : MonitorState :=
  if m.recCount = 1 then
    { m with recCount := 0, mutexLocked := false }
  else
    { m with recCount := m.recCount - 1 }

/-- `Monitor::unlock_completely` (sync.rs lines 46-55): swap the recursion
count to zero (returning the old value as a token), store `u64::MAX` into
holder, and unlock the raw mutex. -/
def MonitorState.unlockCompletely (m : MonitorState) : Nat × MonitorState :=
  (m.recCount, { holder := NO_HOLDER, recCount := 0, mutexLocked := false })

/-- `Monitor::relock_no_handshake(rec_count)` (sync.rs lines 62-76) called by
thread `me`: lock the mutex, store the token as the recursion count, and
record `me` as holder. -/
def MonitorState.relockNoHandshake (me : Nat) (tok : Nat) (m : MonitorState) :
    MonitorState :=
  let _ := m
  { holder := me, recCount := tok, mutexLocked := true }

/-- `n` successive `lock_no_handshake` acquisitions by thread `me`. -/
def MonitorState.lockN (me : Nat) : Nat → MonitorState → MonitorState
  | 0, m => m
  | n + 1, m => MonitorState.lockN me n (m.lockNoHandshake me)

/-- `n` successive guard drops. -/
def MonitorState.dropN : Nat → MonitorState → MonitorState
  | 0, m => m
  | n + 1, m => MonitorState.dropN n m.guardDrop


/-- Helper: once `me` is the recorded holder, every further
`lock_no_handshake` takes the recursive path and only increments the
recursion count. -/
theorem lockN_of_holder (me : Nat) (n : Nat) (m : MonitorState)
    (h : m.holder = me) :
    MonitorState.lockN me n m
      = { m with recCount := m.recCount + n } := by
  induction n generalizing m with
  | zero => rfl
  | succ k ih =>
    have hlock : m.lockNoHandshake me = { m with recCount := m.recCount + 1 } := by
      unfold MonitorState.lockNoHandshake
      rw [if_neg (not_not_intro h.symm)]
    rw [MonitorState.lockN, hlock,
      ih { m with recCount := m.recCount + 1 } h]
    show ({ m with recCount := m.recCount + 1 + k } : MonitorState) = _
    rw [Nat.add_assoc, Nat.add_comm 1 k]

/-- Helper: `n ≥ 1` acquisitions from a free monitor record `me` as holder
with recursion count `n` and the mutex held. -/
theorem lockN_init (me n : Nat) (hme : me ≠ NO_HOLDER) (hn : 1 ≤ n) :
    MonitorState.lockN me n .init
      = { holder := me, recCount := n, mutexLocked := true } := by
  obtain ⟨p, rfl⟩ : ∃ p, n = p + 1 := ⟨n - 1, by omega⟩
  have hfirst : MonitorState.init.lockNoHandshake me
      = { holder := me, recCount := 1, mutexLocked := true } := by
    unfold MonitorState.lockNoHandshake MonitorState.init
    rw [if_pos (by simpa using hme)]
  rw [MonitorState.lockN, hfirst, lockN_of_holder me p _ rfl]
  show ({ holder := me, recCount := 1 + p, mutexLocked := true } : MonitorState) = _
  rw [Nat.add_comm 1 p]

/-- Helper: fewer drops than the recursion count only decrement the count,
leaving holder and mutex untouched. -/
theorem dropN_lt (k : Nat) (m : MonitorState) (h : k < m.recCount) :
    MonitorState.dropN k m = { m with recCount := m.recCount - k } := by
  induction k generalizing m with
  | zero => rfl
  | succ j ih =>
    have hone : ¬ m.recCount = 1 := by omega
    have hdrop : m.guardDrop = { m with recCount := m.recCount - 1 } := by
      unfold MonitorState.guardDrop
      rw [if_neg hone]
    rw [MonitorState.dropN, hdrop,
      ih _ (show j < m.recCount - 1 by omega)]
    show ({ m with recCount := m.recCount - 1 - j } : MonitorState) = _
    have harith : m.recCount - 1 - j = m.recCount - (j + 1) := by omega
    rw [harith]

/-- Helper: dropping exactly `recCount` guards resets the count to zero and
releases the mutex (the last drop is the releasing one). -/
theorem dropN_exact (m : MonitorState) (h : 0 < m.recCount) :
    MonitorState.dropN m.recCount m
      = { m with recCount := 0, mutexLocked := false } := by
  obtain ⟨p, hp⟩ : ∃ p, m.recCount = p + 1 := ⟨m.recCount - 1, by omega⟩
  rw [hp]
  clear h
  induction p generalizing m with
  | zero =>
    rw [MonitorState.dropN, MonitorState.dropN]
    unfold MonitorState.guardDrop
    rw [if_pos (show m.recCount = 1 by omega)]
  | succ q ih =>
    have hdrop : m.guardDrop = { m with recCount := q + 1 } := by
      unfold MonitorState.guardDrop
      rw [if_neg (show ¬ m.recCount = 1 by omega)]
      have harith : m.recCount - 1 = q + 1 := by omega
      rw [harith]
    rw [MonitorState.dropN, hdrop, ih _ rfl]

/-! ## Claims C7, C10 -/

/-- C7: starting from a free monitor, `n ≥ 1` nested `lock_no_handshake`
calls by thread `me` raise the recursion count to exactly `n` with the mutex
held; the mutex stays held through the first `n - 1` guard drops and is
released exactly at the `n`-th, at which point the count is back to zero;
`unlock_completely` returns the current count `n` as a token and resets the
count to zero, and `relock_no_handshake` with that token restores exactly
recursion count `n`. -/
theorem C7_monitor_recursion (me n : Nat)
    (hme : me ≠ NO_HOLDER) (hn : 1 ≤ n) :
    (MonitorState.lockN me n .init).recCount = n
    ∧ (MonitorState.lockN me n .init).holder = me
    ∧ (MonitorState.lockN me n .init).mutexLocked = true
    ∧ (∀ k, k < n →
        (MonitorState.dropN k (MonitorState.lockN me n .init)).mutexLocked = true)
    ∧ (MonitorState.dropN n (MonitorState.lockN me n .init)).mutexLocked = false
    ∧ (MonitorState.dropN n (MonitorState.lockN me n .init)).recCount = 0
    ∧ ((MonitorState.lockN me n .init).unlockCompletely).1 = n
    ∧ (MonitorState.relockNoHandshake me
        ((MonitorState.lockN me n .init).unlockCompletely).1
        ((MonitorState.lockN me n .init).unlockCompletely).2).recCount = n := by
  have hlock := lockN_init me n hme hn
  have hdropped : MonitorState.dropN n (MonitorState.lockN me n .init)
      = { holder := me, recCount := 0, mutexLocked := false } := by
    rw [hlock]
    exact dropN_exact { holder := me, recCount := n, mutexLocked := true } hn
  refine ⟨by rw [hlock], by rw [hlock], by rw [hlock], ?_, ?_, ?_, ?_, ?_⟩
  · intro k hk
    rw [hlock, dropN_lt k _ (by simpa using hk)]
  · rw [hdropped]
  · rw [hdropped]
  · rw [hlock]
    rfl
  · rw [hlock]
    rfl

/-- C7 witness: the recursion characterization applied concretely for thread
id 7 with 3 nested acquisitions. -/
theorem C7_monitor_recursion_witness :
    (MonitorState.lockN 7 3 .init).recCount = 3
    ∧ (MonitorState.dropN 3 (MonitorState.lockN 7 3 .init)).mutexLocked = false := by
  have h := C7_monitor_recursion 7 3 (by decide) (by decide)
  exact ⟨h.1, h.2.2.2.2.1⟩

/-- C10: after `n` locks and `n` guard drops the recursion count is back to
zero and the mutex is free, yet the holder field still records `me` (guard
drops never touch it — shown in general), so a later `lock_no_handshake` by
`me` observes itself as holder, takes the recursive path, and increments the
recursion count to 1 without acquiring the underlying mutex (the mutex stays
free). -/
theorem C10_holder_stale_after_release (me n : Nat)
    (hme : me ≠ NO_HOLDER) (hn : 1 ≤ n) :
    (∀ m : MonitorState, m.guardDrop.holder = m.holder)
    ∧ (MonitorState.dropN n (MonitorState.lockN me n .init)).holder = me
    ∧ (MonitorState.dropN n (MonitorState.lockN me n .init)).recCount = 0
    ∧ ((MonitorState.dropN n (MonitorState.lockN me n .init)).lockNoHandshake
        me).recCount = 1
    ∧ ((MonitorState.dropN n (MonitorState.lockN me n .init)).lockNoHandshake
        me).mutexLocked = false := by
  have hdropped : MonitorState.dropN n (MonitorState.lockN me n .init)
      = { holder := me, recCount := 0, mutexLocked := false } := by
    rw [lockN_init me n hme hn]
    exact dropN_exact { holder := me, recCount := n, mutexLocked := true } hn
  have hrelock :
      ({ holder := me, recCount := 0, mutexLocked := false } :
          MonitorState).lockNoHandshake me
        = { holder := me, recCount := 1, mutexLocked := false } := by
    unfold MonitorState.lockNoHandshake
    rw [if_neg (by simp)]
  refine ⟨?_, ?_, ?_, ?_, ?_⟩
  · intro m
    unfold MonitorState.guardDrop
    by_cases h : m.recCount = 1 <;> simp [h]
  · rw [hdropped]
  · rw [hdropped]
  · rw [hdropped, hrelock]
  · rw [hdropped, hrelock]

/-- C10 witness: the stale-holder behavior at thread id 7 after 2 nested
acquisitions and 2 drops. -/
theorem C10_holder_stale_after_release_witness :
    (MonitorState.dropN 2 (MonitorState.lockN 7 2 .init)).holder = 7
    ∧ ((MonitorState.dropN 2 (MonitorState.lockN 7 2 .init)).lockNoHandshake
        7).mutexLocked = false := by
  have h := C10_holder_stale_after_release 7 2 (by decide) (by decide)
  exact ⟨h.2.1, h.2.2.2.2⟩

/-! ## Block adapters and check_block (crates/vmkit/src/runtime/threads.rs) -/

/-- Per-adapter blocking flags of a thread, as surfaced through the
`BlockAdapter` trait (for `GCBlockAdapter` these live in
`should_block_for_gc` / `is_blocked_for_gc`). -/
structure AdapterState where
  hasRequest : Bool
  isBlocked : Bool
deriving DecidableEq, Repr

/-- One adapter's step of `BlockAdapterList::acknowledge_block_requests`
(threads.rs, `block_adapter_list!` macro): if the adapter has a pending block
request, mark the thread blocked for it and clear the request. -/
def acknowledgeOne (a : AdapterState) : AdapterState :=
  if a.hasRequest then { hasRequest := false, isBlocked := true } else a

/-- `BlockAdapterList::acknowledge_block_requests` over the whole list. -/
def acknowledgeAll (l : List AdapterState) : List AdapterState :=
  l.map acknowledgeOne

/-- `BlockAdapterList::is_blocked`: fold of `is_blocked` over all adapters. -/
def anyBlocked (l : List AdapterState) : Bool :=
  l.any (fun a => a.isBlocked)

/-- The thread-local data `check_block_no_save_context` manipulates: the
execution state, the `is_blocking` flag and the registered block adapters. -/
structure ThreadTLS where
  state : ThreadState
  isBlocking : Bool
  adapters : List AdapterState
deriving DecidableEq, Repr

/-- The `loop` of `Thread::check_block_no_save_context` (threads.rs lines
194-206): acknowledge pending block requests, exit when no adapter reports
blocked, otherwise wait on the monitor condvar.  While the thread waits, other
threads (holding the monitor) may mutate its TLS; each element of `envs` is
one such environment step applied at the corresponding wait.  Runs out of
trace (`none`) if the thread is still blocked after all environment steps —
in the code it would still be waiting. -/
def checkBlockLoop : List (ThreadTLS → ThreadTLS) → ThreadTLS → Option ThreadTLS
  | envs, tls =>
    let tls1 : ThreadTLS := { tls with adapters := acknowledgeAll tls.adapters }
    if anyBlocked tls1.adapters then
      match envs with
      | [] => none
      | e :: rest => checkBlockLoop rest (e tls1)
    else
      some tls1

/-- `Thread::check_block_no_save_context` (threads.rs lines 188-215): under
the thread's monitor, set `is_blocking`, run the acknowledge/wait loop, then
store `Running` into the state and clear `is_blocking` before releasing the
monitor. -/
def checkBlockNoSaveContext (envs : List (ThreadTLS → ThreadTLS))
    (tls : ThreadTLS) : Option ThreadTLS :=
  match checkBlockLoop envs { tls with isBlocking := true } with
  | some t => some { t with state := .Running, isBlocking := false }
  | none => none

/-- Helper: when the acknowledge/wait loop of `check_block` terminates, no
adapter reports blocked in the resulting TLS. -/
theorem checkBlockLoop_not_blocked (envs : List (ThreadTLS → ThreadTLS))
    (tls t : ThreadTLS) (h : checkBlockLoop envs tls = some t) :
    anyBlocked t.adapters = false := by
  induction envs generalizing tls with
  | nil =>
    rw [checkBlockLoop] at h
    by_cases hb : anyBlocked (acknowledgeAll tls.adapters) = true
    · rw [if_pos hb] at h
      exact absurd h (by simp)
    · rw [if_neg hb] at h
      obtain rfl : { tls with adapters := acknowledgeAll tls.adapters } = t :=
        Option.some.inj h
      simpa using hb
  | cons e rest ih =>
    rw [checkBlockLoop] at h
    by_cases hb : anyBlocked (acknowledgeAll tls.adapters) = true
    · rw [if_pos hb] at h
      exact ih _ h
    · rw [if_neg hb] at h
      obtain rfl : { tls with adapters := acknowledgeAll tls.adapters } = t :=
        Option.some.inj h
      simpa using hb

/-! ## Write barrier (crates/vmkit/src/mm.rs) -/

/-- The arguments the write-barrier slow path forwards to the collector's
`object_reference_write_slow`: the source object, the slot, and the optional
target reference. -/
structure BarrierSlowCall where
  src : Nat
  slot : Nat
  target : Option Nat
deriving DecidableEq, Repr

/-- `vmkit_reference_write_post` (mm.rs lines 154-170): when the plan is
generational, compute `meta_addr = base + (addr >> 6)` from the raw address of
`src` (`base` is `GLOBAL_SIDE_METADATA_VM_BASE_ADDRESS`), load the metadata
byte, shift it right by `(addr >> 3) & 0b111`, and invoke
`vmkit_write_barrier_post_slow` — which forwards `(src, slot, target)` to the
collector — exactly when the resulting low bit is 1.  When the plan is not
generational, nothing is done.  `mem` is the byte memory. -/
def referenceWritePost (generational : Bool) (base : Nat) (mem : Nat → Nat)
    (src slot : Nat) (target : Option Nat) : Option BarrierSlowCall :=
  if generational then
    let addr := src
    let metaAddr := base + (addr >>> 6)
    let shift := (addr >>> 3) % 8
    let byteVal := mem metaAddr % 256
    if (byteVal >>> shift) % 2 = 1 then
      some { src := src, slot := slot, target := target }
    else
      none
  else
    none

/-! ## Claims C6, C8 -/

/-- C6: whenever `check_block_no_save_context` returns (for any interleaving
of environment steps at its condvar waits), the resulting thread state is
`Running` and no registered block adapter reports the thread blocked. -/
theorem C6_check_block_postcondition (envs : List (ThreadTLS → ThreadTLS))
    (tls tls' : ThreadTLS)
    (h : checkBlockNoSaveContext envs tls = some tls') :
    tls'.state = ThreadState.Running ∧ anyBlocked tls'.adapters = false := by
  unfold checkBlockNoSaveContext at h
  cases hloop : checkBlockLoop envs { tls with isBlocking := true } with
  | none =>
    rw [hloop] at h
    exact absurd h (by simp)
  | some t =>
    rw [hloop] at h
    obtain rfl : { t with state := ThreadState.Running, isBlocking := false }
        = tls' := Option.some.inj h
    exact ⟨rfl, checkBlockLoop_not_blocked envs _ t hloop⟩

/-- C6 witness: a thread with one adapter holding a pending GC block request;
after one environment step that unblocks it (clearing the blocked flag, as
`Thread::unblock` does), `check_block` returns with state `Running` and no
adapter blocked. -/
theorem C6_check_block_postcondition_witness :
    checkBlockNoSaveContext
        [fun t => { t with adapters := [⟨false, false⟩] }]
        ⟨ThreadState.RunningToBlock, false, [⟨true, false⟩]⟩
      = some ⟨ThreadState.Running, false, [⟨false, false⟩]⟩
    ∧ (⟨ThreadState.Running, false, [⟨false, false⟩]⟩ : ThreadTLS).state
        = ThreadState.Running := by
  refine ⟨?_, ?_⟩
  · rfl
  · exact (C6_check_block_postcondition
      [fun t => { t with adapters := [⟨false, false⟩] }]
      ⟨ThreadState.RunningToBlock, false, [⟨true, false⟩]⟩
      ⟨ThreadState.Running, false, [⟨false, false⟩]⟩ (by rfl)).1

/-- C8: the write-barrier fast path does nothing when the plan is not
generational; when it is, the slow path is invoked, with exactly
`(src, slot, target)` forwarded, if and only if bit
`(addr_of(src) >> 3) & 7` of the metadata byte at
`base + (addr_of(src) >> 6)` is 1. -/
theorem C8_reference_write_post (base : Nat) (mem : Nat → Nat)
    (src slot : Nat) (target : Option Nat) :
    referenceWritePost false base mem src slot target = none
    ∧ referenceWritePost true base mem src slot target
      = (if ((mem (base + (src >>> 6)) % 256) >>> ((src >>> 3) % 8)) % 2 = 1
          then some { src := src, slot := slot, target := target }
          else none) := by
  constructor
  · rfl
  · rfl

/-! ## Object motion and hashcode (crates/vmkit/src/objectmodel.rs,
crates/vmkit/src/objectmodel/constants.rs, header.rs) -/

/-- `OBJECT_HASH_SIZE = size_of::<u64>() = 8` (constants.rs). -/
def OBJECT_HASH_SIZE : Nat := 8

/-- `OBJECT_REF_OFFSET = -OBJECT_HEADER_OFFSET = size_of::<usize>() = 8`
(constants.rs): the object reference points 8 bytes past the header. -/
def OBJECT_REF_OFFSET : Nat := 8

/-- `LOG_BYTES_IN_ADDRESS = 3` on the 64-bit target (mmtk constants). -/
def LOG_BYTES_IN_ADDRESS : Nat := 3

/-- The heap as seen by `hashcode` and `move_object`: a word memory indexed by
byte address (all addresses involved are 8-aligned) and, for each header
address, the hash-state field of the header word stored there.  The header's
hash-state field is read and written here as an exact `HashState` value; the
defect of the bitfield encode/decode layer itself is treated separately
(claim C3), so that this model isolates the address arithmetic of
`hashcode`/`move_object`. -/
structure ObjHeap where
  mem : Nat → Nat
  hstate : Nat → HashState

/-- `HeapObjectHeader::hashcode` (header.rs lines 101-118) for the object
whose reference is `objref`: `addr` is the header address plus the header
size, i.e. `objref` itself, and the hash is `addr` as a 64-bit integer.  A
`Hashed` object returns it directly; an `Unhashed` object transitions to
`Hashed` and returns it; a `HashedAndMoved` object instead loads the word at
`addr - OBJECT_HASH_SIZE`. -/
def ObjHeap.hashcode (h : ObjHeap) (objref : Nat) : Nat × ObjHeap :=
  let addr := objref
  let hc := addr
  match h.hstate (objref - OBJECT_REF_OFFSET) with
  | .Hashed => (hc, h)
  | .Unhashed =>
      (hc, { h with hstate := fun a =>
          if a = objref - OBJECT_REF_OFFSET then .Hashed else h.hstate a })
  | .HashedAndMoved => (h.mem (addr - OBJECT_HASH_SIZE), h)

/-- `std::ptr::copy_nonoverlapping` restricted to whole 8-byte words: copy
`n` words from `src` to `dst` (both 8-aligned, as all object addresses and
sizes in the source are). -/
def copyRange {α : Type} (f : Nat → α) (src dst n : Nat) : Nat → α :=
  fun a =>
    if dst ≤ a ∧ (a - dst) % 8 = 0 ∧ (a - dst) / 8 < n then
      f (src + (a - dst))
    else
      f a

/-- `ObjectModel::move_object` (objectmodel.rs lines 102-164) with a
`MoveTarget::ToAddress` target: read the hash state; for a `Hashed` object
shrink the copy by the hash word and bump the target address; for a
`HashedAndMoved` object widen the object-reference offset by the hash word;
copy `copy_bytes` from `from_obj - obj_ref_offset` to the target address; and
for a `Hashed` object store `from_obj >> LOG_BYTES_IN_ADDRESS` at
`to_obj + OBJECT_HASH_OFFSET` (16 bytes below the new reference) and set the
new header's hash state to `HashedAndMoved`.  Returns the new reference. -/
def ObjHeap.moveObjectToAddress (h : ObjHeap) (fromObj toRegion numBytes : Nat) :
    Nat × ObjHeap :=
  let st := h.hstate (fromObj - OBJECT_REF_OFFSET)
  let copyBytes := if st = .Hashed then numBytes - OBJECT_HASH_SIZE else numBytes
  let addr := if st = .Hashed then toRegion + OBJECT_HASH_SIZE else toRegion
  let objRefOffset :=
    if st = .HashedAndMoved then OBJECT_REF_OFFSET + OBJECT_HASH_SIZE
    else OBJECT_REF_OFFSET
  let toObj := addr + objRefOffset
  let fromAddress := fromObj - objRefOffset
  let mem1 := copyRange h.mem fromAddress addr (copyBytes / 8)
  let hst1 := copyRange h.hstate fromAddress addr (copyBytes / 8)
  if st = .Hashed then
    let hashCode := fromObj >>> LOG_BYTES_IN_ADDRESS
    (toObj,
      { mem := fun a =>
          if a = toObj - (OBJECT_REF_OFFSET + OBJECT_HASH_SIZE) then hashCode
          else mem1 a
        hstate := fun a =>
          if a = toObj - OBJECT_REF_OFFSET then .HashedAndMoved else hst1 a })
  else
    (toObj, { mem := mem1, hstate := hst1 })

/-- A concrete heap for evaluating the hashcode claims: an object of 16 used
bytes whose reference sits at address 64 and whose identity hash has already
been observed (header at 56 is `Hashed`); the word memory holds the
recognizable value `1000 + a` at address `a`. -/
def exampleHeap : ObjHeap :=
  { mem := fun a => 1000 + a
    hstate := fun a => if a = 56 then .Hashed else .Unhashed }

/-! ## Claim C1 -/

/-- C1: the claim says a `Hashed` object's hash survives `move_object` — that
`hashcode()` before the move equals the cached `addr >> log2(8)` that
`hashcode()` loads after the move.  False on the code, evaluated at the
object with reference address 64 moved to region 1024 (24 bytes =
16 used + 8 reserved hash): before the move `hashcode()` returns the raw
address 64 (unshifted); `move_object` caches `64 >> 3 = 8` at the new
reference 1040 minus 16; after the move `hashcode()` loads the word at
1040 minus 8 — the copied header word, here 1056 — so the observed hash
changes 64 ↦ 1056, and even the cached word 8 differs from 64. -/
theorem C1_hashcode_not_preserved :
    (exampleHeap.hashcode 64).1 = 64
    ∧ (exampleHeap.moveObjectToAddress 64 1024 24).1 = 1040
    ∧ ((exampleHeap.moveObjectToAddress 64 1024 24).2.hashcode 1040).1 = 1056
    ∧ (exampleHeap.moveObjectToAddress 64 1024 24).2.mem (1040 - 16) = 8
    ∧ (64 : Nat) ≠ 1056
    ∧ (64 : Nat) ≠ 8 := by
  refine ⟨rfl, rfl, rfl, rfl, by decide, by decide⟩
